import Mathlib

/-!
# Verification of `api/publish.py` (airtable-meta-webhook)

Shallow embedding of the single-file webhook handler that bridges an Airtable
content base to the Meta Graph API.  Python strings are modelled as `String`
(lists of characters), machine integers as `Int`/`Nat`, fallible parsing as
`Option`, and the outbound HTTP side effects (Airtable reads/patches, Meta
Graph calls, audit-log appends) as an explicit trace of `Effect` values.

Conventions used throughout:
* A Python value read with `dict.get(k, default)` is modelled as an `Option`
  plus `Option.getD`, and Python truthiness of strings (`if s:`) as the test
  `s ≠ ""` (with `None ↦ Option.none`).
* `pytz.timezone('Asia/Taipei')` has the fixed offset UTC+8 for every instant
  from 1980 onwards (Taiwan has had no DST and no offset change since then);
  the spec likewise describes the zone as "fixed offset, e.g. UTC+8".  The
  embedding therefore uses the constant offset `8 * 3600` seconds.
* `datetime.now(taiwan_tz)` is modelled by an unconstrained `Int` field
  `Env.now` holding the current Unix time in whole seconds.
-/

namespace AMW

/-! ## Python string primitives

`splitOnAux`/`splitOnL` mirror Python's `str.split(sep)` for a non-empty
separator: scan left to right, breaking at each leftmost non-overlapping
occurrence.  `str.replace(old, new)` is `new.join(s.split(old))`, i.e.
`List.intercalate`; `p in s` is "the split has at least two pieces". -/

def splitOnFuel (p0 : Char) (ps : List Char) : Nat → List Char → List (List Char)
  | _, [] => [[]]
  | 0, xs => [xs]
  | fuel + 1, c :: rest =>
    if c = p0 ∧ ps.isPrefixOf rest then
      [] :: splitOnFuel p0 ps fuel (rest.drop ps.length)
    else
      match splitOnFuel p0 ps fuel rest with
      | [] => [[c]]
      | h :: t => (c :: h) :: t

/-- The fuel only has to cover the input length; `splitOnAux` below always
supplies enough. -/
theorem splitOnFuel_congr (p0 : Char) (ps : List Char) :
    ∀ f1 f2 xs, xs.length ≤ f1 → xs.length ≤ f2 →
      splitOnFuel p0 ps f1 xs = splitOnFuel p0 ps f2 xs := by
  intro f1
  induction f1 with
  | zero =>
    intro f2 xs h1 _
    have hx : xs = [] := List.eq_nil_of_length_eq_zero (Nat.le_zero.mp h1)
    subst hx; cases f2 <;> rfl
  | succ n ih =>
    intro f2 xs h1 h2
    cases xs with
    | nil => cases f2 <;> rfl
    | cons c rest =>
      cases f2 with
      | zero => simp at h2
      | succ m =>
        simp only [splitOnFuel]
        simp only [List.length_cons] at h1 h2
        by_cases hc : c = p0 ∧ ps.isPrefixOf rest
        · rw [if_pos hc, if_pos hc,
            ih m _ (by simp [List.length_drop]; omega)
              (by simp [List.length_drop]; omega)]
        · rw [if_neg hc, if_neg hc, ih m rest (by omega) (by omega)]

def splitOnAux (p0 : Char) (ps : List Char) (xs : List Char) :
    List (List Char) :=
  splitOnFuel p0 ps xs.length xs

@[simp] theorem splitOnAux_nil (p0 : Char) (ps : List Char) :
    splitOnAux p0 ps [] = [[]] := rfl

theorem splitOnAux_cons (p0 : Char) (ps : List Char) (c : Char)
    (rest : List Char) :
    splitOnAux p0 ps (c :: rest) =
      if c = p0 ∧ ps.isPrefixOf rest then
        [] :: splitOnAux p0 ps (rest.drop ps.length)
      else
        match splitOnAux p0 ps rest with
        | [] => [[c]]
        | h :: t => (c :: h) :: t := by
  show splitOnFuel p0 ps (rest.length + 1) (c :: rest) = _
  simp only [splitOnFuel]
  by_cases hc : c = p0 ∧ ps.isPrefixOf rest
  · rw [if_pos hc, if_pos hc,
      splitOnFuel_congr p0 ps rest.length (rest.drop ps.length).length _
        (by simp [List.length_drop]) (le_refl _)]
    rfl
  · rw [if_neg hc, if_neg hc]
    rfl

def splitOnL (pat : List Char) (xs : List Char) : List (List Char) :=
  match pat with
  | [] => [xs]
  | p :: ps => splitOnAux p ps xs

def replaceL (pat rep xs : List Char) : List Char :=
  List.intercalate rep (splitOnL pat xs)

/-- Python `pat in hay` (substring containment) for a non-empty `pat`. -/
def containsSub (pat xs : List Char) : Bool :=
  match splitOnL pat xs with
  | _ :: _ :: _ => true
  | _ => false

def containsS (hay pat : String) : Bool := containsSub pat.toList hay.toList

/-- `str.lower()`, modelled exactly on the code points that can influence
the `'facebook' in …` / `'fb' in …` checks: the ASCII letters plus U+212A
KELVIN SIGN, the single code point outside `A`–`Z` whose `lower()` image
contains an ASCII letter (`k`).  The one remaining multi-character lowering,
`İ` (U+0130) → `i` + U+0307, produces no character of either compared
literal, and every other code point lowers to non-ASCII characters, so
substituting it (or any other character this map leaves fixed) cannot create
or destroy an occurrence of the ASCII-only patterns — `isFbPlatform` below
therefore agrees with the code on every platform label. -/
def lowerC (c : Char) : Char :=
  if 'A' ≤ c ∧ c ≤ 'Z' then Char.ofNat (c.toNat + 32)
  else if c = Char.ofNat 0x212A then 'k'
  else c

def lowerS (s : String) : String := String.mk (s.toList.map lowerC)

/-- Python truthiness filter for an optional string field: `None` and `''`
are falsy, everything else passes through. -/
def truthyOpt : Option String → Option String
  | none => none
  | some s => if s = "" then none else some s

/-! ## Calendar arithmetic

`datetime` uses the proleptic Gregorian calendar; `daysFromCivil` is the
standard civil-date → epoch-day conversion (Howard Hinnant's algorithm, all
intermediate quantities non-negative for years ≥ 1). -/

structure Civil where
  year : Nat
  month : Nat
  day : Nat
  hour : Nat
  minute : Nat
  second : Nat
deriving DecidableEq, Repr

def isLeap (y : Nat) : Bool :=
  y % 4 = 0 && (y % 100 != 0 || y % 400 = 0)

def daysInMonth (y m : Nat) : Nat :=
  if m = 2 then (if isLeap y then 29 else 28)
  else if m = 4 ∨ m = 6 ∨ m = 9 ∨ m = 11 then 30
  else 31

/-- The field ranges `datetime.strptime`/`datetime.__init__` enforce for the
formats `%Y-%m-%dT%H:%M:%S(Z)`: 4-digit year ≥ 1, month 1–12, day within the
month, 24-hour clock, no leap seconds. -/
def validCivil (c : Civil) : Bool :=
  1 ≤ c.year && c.year ≤ 9999 &&
  1 ≤ c.month && c.month ≤ 12 &&
  1 ≤ c.day && c.day ≤ daysInMonth c.year c.month &&
  c.hour ≤ 23 && c.minute ≤ 59 && c.second ≤ 59

def daysFromCivil (y m d : Nat) : Int :=
  let yi : Int := if m ≤ 2 then (y : Int) - 1 else (y : Int)
  let era : Int := yi / 400
  let yoe : Int := yi - era * 400
  let mp : Int := ((m : Int) + 9) % 12
  let doy : Int := (153 * mp + 2) / 5 + (d : Int) - 1
  let doe : Int := yoe * 365 + yoe / 4 - yoe / 100 + doy
  era * 146097 + doe - 719468

/-- Unix time of a civil datetime read as UTC
(`pytz.utc.localize(dt).timestamp()`). -/
def toEpoch (c : Civil) : Int :=
  daysFromCivil c.year c.month c.day * 86400 +
    (c.hour : Int) * 3600 + (c.minute : Int) * 60 + (c.second : Int)

/-! ## `strptime` for the two formats the code uses -/

def isDigitC (c : Char) : Bool := 48 ≤ c.toNat && c.toNat ≤ 57

def digitVal (c : Char) : Nat := c.toNat - 48

def parseDigits (l : List Char) : Option Nat :=
  if !l.isEmpty && l.all isDigitC then
    some (l.foldl (fun a c => a * 10 + digitVal c) 0)
  else none

/-- `%Y`: exactly four digits (CPython's `_strptime` regex `\d\d\d\d`). -/
def parseY (l : List Char) : Option Nat :=
  if l.length = 4 then parseDigits l else none

/-- `%m`/`%H`/`%M`/`%S`: one or two digits; the numeric range checks of
CPython's regex alternations together with the `datetime` constructor are
folded into `validCivil` below. -/
def parseF2 (l : List Char) : Option Nat :=
  if l.length = 1 ∨ l.length = 2 then parseDigits l else none

/-- `%d`: like the other two-digit fields but CPython's regex has the extra
alternative ``` [1-9]```, a space-padded day (the value then comes from
`int(' d')`, which strips the space). -/
def parseDay (ls : List Char) : Option Nat :=
  match ls with
  | [c1, c2] =>
    if c1 = ' ' then
      if '1' ≤ c2 ∧ c2 ≤ '9' then some (digitVal c2) else none
    else parseF2 ls
  | _ => parseF2 ls

/-- CPython's `_strptime` compiles the format regex with `IGNORECASE`, so
the literal `T` of the format also matches `t`.  The digit fields and the
`-`/`:` separators contain no letters, so folding `t` to `T` before
splitting realises exactly that (a string with several `T`/`t`s still
yields more than two pieces and is rejected, as in the code). -/
def foldT (l : List Char) : List Char :=
  l.map (fun c => if c = 't' then 'T' else c)

/-- `datetime.strptime(s, "%Y-%m-%dT%H:%M:%S")`, returning `none` where
Python raises `ValueError` (wrong shape, non-digits, out-of-range fields,
trailing input). -/
def strptimeCivil (l : List Char) : Option Civil :=
  match splitOnL ['T'] (foldT l) with
  | [datePart, timePart] =>
    match splitOnL ['-'] datePart, splitOnL [':'] timePart with
    | [ys, mos, ds], [hs, mis, ses] =>
      match parseY ys, parseF2 mos, parseDay ds, parseF2 hs, parseF2 mis, parseF2 ses with
      | some y, some mo, some d, some h, some mi, some se =>
        let c : Civil := ⟨y, mo, d, h, mi, se⟩
        if validCivil c then some c else none
      | _, _, _, _, _, _ => none
    | _, _ => none
  | _ => none

/-- Lines 221–240 of `process_record`: strip a literal millisecond part
(`dt_str = scheduled_datetime.replace('.000Z', 'Z').replace('.000', '')`). -/
def preprocessDT (l : List Char) : List Char :=
  replaceL ['.', '0', '0', '0'] [] (replaceL ['.', '0', '0', '0', 'Z'] ['Z'] l)

/-- The schedule-string → Unix-timestamp computation of lines 221–240:
a `'Z'`-suffixed string is parsed as UTC (`dt_str.endswith('Z')`, format
`"%Y-%m-%dT%H:%M:%SZ"`, here realised as "last char is `'Z'`, parse the
rest"); a naive string is localized to Asia/Taipei (fixed UTC+8), so its
Unix time is the wall-clock epoch minus `8 * 3600`.  `none` models the
`except` branch of lines 251–253. -/
def parseScheduledL (l : List Char) : Option Int :=
  let dtStr := preprocessDT l
  if dtStr.reverse.head? = some 'Z' then
    (strptimeCivil dtStr.reverse.tail.reverse).map toEpoch
  else
    (strptimeCivil dtStr).map (fun c => toEpoch c - 8 * 3600)

def parseScheduled (s : String) : Option Int := parseScheduledL s.toList

/-- Lines 217–253 of `process_record`: the whole schedule-resolution block.
`now` is `datetime.now(taiwan_tz)` as Unix seconds; `timedelta(minutes=15)`
is 900 seconds; a target instant strictly before `now + 900` (the code's
`dt_taiwan < min_time` on aware datetimes compares instants) discards the
schedule. -/
def resolveSchedule (now : Int) : Option String → Option Int
  | none => none
  | some s =>
    if s = "" then none
    else
      match parseScheduled s with
      | none => none
      | some ts => if ts < now + 900 then none else some ts

/-! ## Data model -/

/-- Environment-derived configuration (`META_PAGE_ID`, `META_PAGE_TOKEN`,
`WEBHOOK_SECRET`); an unset variable is `""`, which is exactly how the code
tests it (`if not META_PAGE_ID`, `if WEBHOOK_SECRET:`). -/
structure Config where
  pageId : String
  pageToken : String
  webhookSecret : String
deriving DecidableEq, Repr

/-- One attachment descriptor from the `圖片預覽` field
(`attachment.get('url')`). -/
structure Attachment where
  url : Option String
deriving DecidableEq, Repr

/-- The `fields` object of one fetched Contents record.  `status` models
`fields.get('發布狀態', '')` and `content` models `fields.get('內容', '')`
with the absent key folded into the default `""`; the remaining optional
fields keep their `dict.get` shape. -/
structure AirtableRecord where
  status : String
  fbPostId : Option String
  content : String
  platform : Option String
  scheduledDatetime : Option String
  attachments : List Attachment
deriving DecidableEq, Repr

/-- A Meta Graph API response: `idField` is `result['id']` when present,
`errMsg` is `result['error']['message']` when present, `raw` is `str(result)`
(the fallback used by `result.get('error', {}).get('message', str(result))`). -/
structure MetaResp where
  idField : Option String
  errMsg : Option String
  raw : String
deriving DecidableEq, Repr

/-- The dictionary `publish_to_facebook` returns. -/
inductive FbResult where
  | ok (postId : String) (permalink : String)
  | fail (error : String)
deriving DecidableEq, Repr

/-- The field dictionary sent by `update_airtable_status` (lines 160–171):
`發布狀態`, `確認發布` (always cleared), and `FB_Post_ID` / `拒絕原因` only
when truthy. -/
structure PatchFields where
  status : String
  confirm : Bool
  fbId : Option String
  reason : Option String
deriving DecidableEq, Repr

/-- The field dictionary sent by `log_to_publishing_log` (lines 144–157). -/
structure LogFields where
  time : String
  content : List String
  platform : String
  action : String
  postId : Option String
  errMsg : Option String
deriving DecidableEq, Repr

/-- One outbound HTTP side effect, in program order. -/
inductive Effect where
  | airtableGet (endpoint : String)
  | airtablePatch (endpoint : String) (fields : PatchFields)
  | airtablePost (endpoint : String) (fields : LogFields)
  | metaPost (endpoint : String) (data : List (String × String))
deriving DecidableEq, Repr

/-- The form data of a Meta Graph call, `[]` for Airtable effects. -/
def effectData : Effect → List (String × String)
  | .metaPost _ d => d
  | _ => []

/-- The external world one invocation sees: the outcome of the single record
GET, an oracle giving the response to the i-th Meta Graph call, and the
current Asia/Taipei time (`now` as Unix seconds, `nowIso` as
`datetime.now().isoformat()`). -/
structure Env where
  record : Option AirtableRecord
  meta : Nat → MetaResp
  now : Int
  nowIso : String

/-- The JSON value `process_record` returns. -/
inductive ProcResult where
  | notFound
  | skipped (reason : String) (postId : Option String)
  | noImages
  | published (recordId : String) (facebook : FbResult)
  | idOnly (recordId : String)
deriving DecidableEq, Repr

/-! ## Media resolution (`drive_url_to_direct`, `get_image_url`) -/

/-- `url.split('/file/d/')[1].split('/')[0]` — the substring between the
first `'/file/d/'` and the next `'/'`. -/
def fileIdOf (url : String) : String :=
  match splitOnL "/file/d/".toList url.toList with
  | _ :: part1 :: _ => String.mk ((splitOnL ['/'] part1).headD [])
  | _ => ""

/-- Lines 65–70. -/
def drive_url_to_direct (url : String) : String :=
  match splitOnL "/file/d/".toList url.toList with
  | _ :: part1 :: _ =>
      "https://drive.google.com/uc?export=download&id=" ++
        String.mk ((splitOnL ['/'] part1).headD [])
  | _ => url

/-- Lines 73–83. -/
def get_image_url (url : String) : String :=
  if url = "" then url
  else if containsS url "airtableusercontent.com" then url
  else if containsS url "drive.google.com" then drive_url_to_direct url
  else url

/-! ## Publish dispatch (`publish_to_facebook`) -/

/-- The two optional form fields added when `scheduled_timestamp` is truthy
(`if scheduled_timestamp:` — `None` and `0` are both falsy). -/
def schedParams : Option Int → List (String × String)
  | some ts => if ts ≠ 0 then
      [("published", "false"), ("scheduled_publish_time", toString ts)]
    else []
  | none => []

/-- Lines 128–138: turn the final Graph response into the result dict. -/
def fbResultOf (r : MetaResp) : FbResult :=
  match r.idField with
  | some i => FbResult.ok i ("https://www.facebook.com/" ++ i)
  | none => FbResult.fail (r.errMsg.getD r.raw)

/-- `json.dumps(photo_ids)` for `photo_ids = [{'media_fbid': id}, …]`
(default `json.dumps` separators). -/
def encodeMedia (ids : List String) : String :=
  "[" ++ String.intercalate ", "
    (ids.map (fun i => "\x7b\"media_fbid\": \"" ++ i ++ "\"\x7d")) ++ "]"

/-- The multi-image upload loop (lines 106–113): one unpublished `/photos`
call per URL, collecting the ids of the responses that contain one.  `i` is
the index of the next Meta call in the oracle. -/
def uploadPhotos (cfg : Config) (meta : Nat → MetaResp) :
    List String → Nat → List String × List Effect
  | [], _ => ([], [])
  | u :: rest, i =>
    let eff := Effect.metaPost (cfg.pageId ++ "/photos")
      [("url", get_image_url u), ("published", "false"),
       ("access_token", cfg.pageToken)]
    let r := uploadPhotos cfg meta rest (i + 1)
    match (meta i).idField with
    | some pid => (pid :: r.1, eff :: r.2)
    | none => (r.1, eff :: r.2)

/-- Lines 86–141.  `meta_request` appends `access_token` to every data dict
before sending, so each `Effect.metaPost` carries it last. -/
def publish_to_facebook (cfg : Config) (meta : Nat → MetaResp)
    (content : String) (image_urls : List String)
    (scheduled_timestamp : Option Int) : FbResult × List Effect :=
  if cfg.pageId = "" ∨ cfg.pageToken = "" then
    (FbResult.fail "Missing META_PAGE_ID or META_PAGE_TOKEN", [])
  else if image_urls.length = 1 then
    let data := [("url", get_image_url (image_urls.headD "")),
                 ("caption", content)] ++ schedParams scheduled_timestamp
    (fbResultOf (meta 0),
     [Effect.metaPost (cfg.pageId ++ "/photos")
        (data ++ [("access_token", cfg.pageToken)])])
  else
    let up := uploadPhotos cfg meta (image_urls.take 10) 0
    if up.1 = [] then (FbResult.fail "Failed to upload images", up.2)
    else
      let data := [("message", content), ("attached_media", encodeMedia up.1)]
                    ++ schedParams scheduled_timestamp
      (fbResultOf (meta (image_urls.take 10).length),
       up.2 ++ [Effect.metaPost (cfg.pageId ++ "/feed")
                  (data ++ [("access_token", cfg.pageToken)])])

/-! ## Status write-back and audit log -/

/-- Lines 160–171 as a pure effect. -/
def update_airtable_status (record_id status : String)
    (fbId errMsg : Option String) : Effect :=
  Effect.airtablePatch ("Contents/" ++ record_id)
    { status := status, confirm := false,
      fbId := truthyOpt fbId, reason := truthyOpt errMsg }

/-- Lines 144–157 as a pure effect. -/
def log_to_publishing_log (nowIso record_id platform action : String)
    (postId errMsg : Option String) : Effect :=
  Effect.airtablePost "Publishing_Log"
    { time := nowIso, content := [record_id], platform := platform,
      action := action, postId := truthyOpt postId, errMsg := truthyOpt errMsg }

/-! ## The pipeline (`process_record`, lines 174–271) -/

/-- The image-url collection loop of lines 205–211: every truthy
`attachment.get('url')`, in order. -/
def imageUrls (atts : List Attachment) : List String :=
  atts.filterMap (fun a =>
    match a.url with
    | some u => if u = "" then none else some u
    | none => none)

/-- Line 258: `'facebook' in platform.lower() or 'fb' in platform.lower()`. -/
def isFbPlatform (platform : String) : Bool :=
  containsS (lowerS platform) "facebook" || containsS (lowerS platform) "fb"

/-- Python truthiness of `scheduled_timestamp` at lines 98/122/263/264. -/
def tsTruthy : Option Int → Bool
  | some ts => ts ≠ 0
  | none => false

def process_record (cfg : Config) (env : Env) (record_id : String) :
    ProcResult × List Effect :=
  let fetch := Effect.airtableGet ("Contents/" ++ record_id)
  match env.record with
  | none => (ProcResult.notFound, [fetch])
  | some fields =>
    -- idempotency check 1 (lines 183–190)
    if fields.status = "已發布" ∨ fields.status = "已排程" then
      (ProcResult.skipped ("Already " ++ fields.status) fields.fbPostId, [fetch])
    -- idempotency check 2 (lines 192–198)
    else if (truthyOpt fields.fbPostId).isSome then
      (ProcResult.skipped "Already has FB Post ID" fields.fbPostId, [fetch])
    else
      let content := fields.content
      let platform := fields.platform.getD "Facebook"
      let image_urls := imageUrls fields.attachments
      if image_urls = [] then
        (ProcResult.noImages,
         [fetch, update_airtable_status record_id "發布失敗" none
                   (some "沒有可用的圖片")])
      else
        let scheduled_timestamp := resolveSchedule env.now fields.scheduledDatetime
        if isFbPlatform platform then
          let pub := publish_to_facebook cfg env.meta content image_urls
                       scheduled_timestamp
          match pub.1 with
          | FbResult.ok pid perm =>
            let status := if tsTruthy scheduled_timestamp then "已排程" else "已發布"
            let action := if tsTruthy scheduled_timestamp then "排程" else "發布"
            (ProcResult.published record_id (FbResult.ok pid perm),
             fetch :: pub.2 ++
               [update_airtable_status record_id status (some pid) none,
                log_to_publishing_log env.nowIso record_id "Facebook" action
                  (some pid) none])
          | FbResult.fail err =>
            (ProcResult.published record_id (FbResult.fail err),
             fetch :: pub.2 ++
               [update_airtable_status record_id "發布失敗" none (some err),
                log_to_publishing_log env.nowIso record_id "Facebook" "發布"
                  none (some err)])
        else
          (ProcResult.idOnly record_id, [fetch])

/-! ## The HTTP handler (`handler.do_POST`, lines 277–313) -/

/-- The characters `int()` strips around a number (checked against CPython
3.11: the ASCII whitespace `\t\n\v\f\r` and space, NEL, NBSP and the Unicode
space separators; the file/group/record/unit separators `0x1C`–`0x1F` are
*not* stripped by `int()` even though `str.isspace()` accepts them). -/
def pySpace (c : Char) : Bool :=
  c.toNat = 0x20 ∨ (0x9 ≤ c.toNat ∧ c.toNat ≤ 0xD) ∨
  c.toNat = 0x85 ∨ c.toNat = 0xA0 ∨
  c.toNat = 0x1680 ∨ (0x2000 ≤ c.toNat ∧ c.toNat ≤ 0x200A) ∨
  c.toNat = 0x2028 ∨ c.toNat = 0x2029 ∨ c.toNat = 0x202F ∨
  c.toNat = 0x205F ∨ c.toNat = 0x3000

/-- Digits with Python's underscore grouping: an underscore must sit between
two digits (`1_0` parses, `_1`, `1_`, `1__0` do not). -/
def digitsGrouped (acc : Nat) : List Char → Option Nat
  | [] => some acc
  | c :: rest =>
    if isDigitC c then digitsGrouped (acc * 10 + digitVal c) rest
    else if c = '_' then
      match rest with
      | c2 :: rest2 =>
        if isDigitC c2 then digitsGrouped (acc * 10 + digitVal c2) rest2
        else none
      | [] => none
    else none

/-- `int(s)` for a header string: Unicode whitespace around an optional sign
and underscore-grouped decimal digits; `none` where Python raises
`ValueError`.  Non-ASCII decimal digits (Unicode category Nd), which `int()`
also accepts, are outside the model: `pyInt` accepts only strings the real
`int()` accepts, so a theorem conditioned on `pyInt … = some n` never covers
a request the program would crash on. -/
def pyInt (s : String) : Option Int :=
  let t := ((s.toList.dropWhile pySpace).reverse.dropWhile pySpace).reverse
  match t with
  | '+' :: c :: r =>
    if isDigitC c then (digitsGrouped (digitVal c) r).map (fun n => (n : Int))
    else none
  | '-' :: c :: r =>
    if isDigitC c then (digitsGrouped (digitVal c) r).map (fun n => -(n : Int))
    else none
  | c :: r =>
    if isDigitC c then (digitsGrouped (digitVal c) r).map (fun n => (n : Int))
    else none
  | [] => none

/-- `self.headers.get('Content-Length', 0)` followed by `int(...)`: the
default is already the integer `0`. -/
def clValOf (contentLength : Option String) : Option Int :=
  match contentLength with
  | none => some 0
  | some s => pyInt s

/-- `self.rfile.read(n)` over the available request bytes (values 0–255). -/
def pyRead (stream : List Nat) (n : Int) : List Nat :=
  if n < 0 then stream else stream.take n.toNat

/-- `bytes.decode('utf-8')` with the default strict error handler: rejects
invalid start bytes (`0x80`–`0xC1`, `0xF5`–`0xFF`), missing or malformed
continuation bytes, overlong encodings (the `0xE0`/`0xF0` second-byte
floors), surrogates (`0xED` with second byte ≥ `0xA0`) and code points above
U+10FFFF (`0xF4` with second byte ≥ `0x90`) — exactly the inputs on which
line 280 raises `UnicodeDecodeError`. -/
def utf8Decode : List Nat → Option (List Char)
  | [] => some []
  | b :: rest =>
    if b ≤ 0x7F then (utf8Decode rest).map (fun cs => Char.ofNat b :: cs)
    else if b ≤ 0xC1 then none
    else if b ≤ 0xDF then
      match rest with
      | b1 :: rest1 =>
        if 0x80 ≤ b1 ∧ b1 ≤ 0xBF then
          (utf8Decode rest1).map (fun cs =>
            Char.ofNat ((b - 0xC0) * 64 + (b1 - 0x80)) :: cs)
        else none
      | [] => none
    else if b ≤ 0xEF then
      match rest with
      | b1 :: b2 :: rest2 =>
        if (0x80 ≤ b1 ∧ b1 ≤ 0xBF) ∧ (0x80 ≤ b2 ∧ b2 ≤ 0xBF) ∧
            ¬(b = 0xE0 ∧ b1 < 0xA0) ∧ ¬(b = 0xED ∧ 0xA0 ≤ b1) then
          (utf8Decode rest2).map (fun cs =>
            Char.ofNat ((b - 0xE0) * 4096 + (b1 - 0x80) * 64 + (b2 - 0x80)) :: cs)
        else none
      | _ => none
    else if b ≤ 0xF4 then
      match rest with
      | b1 :: b2 :: b3 :: rest3 =>
        if (0x80 ≤ b1 ∧ b1 ≤ 0xBF) ∧ (0x80 ≤ b2 ∧ b2 ≤ 0xBF) ∧
            (0x80 ≤ b3 ∧ b3 ≤ 0xBF) ∧
            ¬(b = 0xF0 ∧ b1 < 0x90) ∧ ¬(b = 0xF4 ∧ 0x90 ≤ b1) then
          (utf8Decode rest3).map (fun cs =>
            Char.ofNat ((b - 0xF0) * 262144 + (b1 - 0x80) * 4096 +
              (b2 - 0x80) * 64 + (b3 - 0x80)) :: cs)
        else none
      | _ => none
    else none

/-- `json.loads(body) if body else {}` with the bare `except` mapping a parse
failure to `{}`; the JSON library itself is an oracle `jsonParse`. -/
def parsedBody (jsonParse : String → Option (List (String × String)))
    (body : String) : List (String × String) :=
  if body = "" then [] else (jsonParse body).getD []

/-- `data.get('record_id')`. -/
def lookupKey (d : List (String × String)) (k : String) : Option String :=
  (d.find? (fun kv => kv.1 = k)).map (fun kv => kv.2)

structure HttpRequest where
  contentLength : Option String
  authorization : Option String
  stream : List Nat
deriving DecidableEq, Repr

inductive RespBody where
  | raw (s : String)
  | jsonError (msg : String)
  | jsonResult (r : ProcResult)
deriving DecidableEq, Repr

def isJsonBody : RespBody → Bool
  | .raw _ => false
  | _ => true

/-- Outcome of one `do_POST` invocation: either an uncaught exception
propagating out of the handler, or exactly one HTTP response. -/
inductive DoPostOutcome where
  | exn (msg : String)
  | resp (status : Nat) (contentType : Option String) (body : RespBody)
deriving DecidableEq, Repr

def do_POST (cfg : Config) (env : Env)
    (jsonParse : String → Option (List (String × String)))
    (req : HttpRequest) : DoPostOutcome × List Effect :=
  match clValOf req.contentLength with
  | none =>
    -- line 279: int() raises ValueError; nothing in do_POST catches it
    (DoPostOutcome.exn "ValueError: invalid Content-Length", [])
  | some n =>
    match utf8Decode (pyRead req.stream n) with
    | none =>
      -- line 280: .decode('utf-8') raises UnicodeDecodeError, also uncaught
      (DoPostOutcome.exn "UnicodeDecodeError: invalid UTF-8 body", [])
    | some bodyChars =>
      let body := String.mk bodyChars
      let data := parsedBody jsonParse body
      if cfg.webhookSecret ≠ "" ∧
          (req.authorization.getD "") ≠ ("Bearer " ++ cfg.webhookSecret) then
        (DoPostOutcome.resp 401 none (RespBody.raw "Unauthorized"), [])
      else
        match truthyOpt (lookupKey data "record_id") with
        | none =>
          (DoPostOutcome.resp 400 (some "application/json")
             (RespBody.jsonError "Missing record_id"), [])
        | some record_id =>
          let pr := process_record cfg env record_id
          (DoPostOutcome.resp 200 (some "application/json")
             (RespBody.jsonResult pr.1), pr.2)

/-! ## Sanity anchors for the embedding -/

example : toEpoch ⟨1970, 1, 1, 0, 0, 0⟩ = 0 := by decide
example : toEpoch ⟨2026, 1, 5, 14, 0, 0⟩ = 1767621600 := by decide
example : parseScheduled "2026-01-05T14:00:00.000Z" = some 1767621600 := by decide
example : parseScheduled "2026-01-05T14:00:00" = some 1767592800 := by decide
example : parseScheduled "2026-01-05T14:00:00+08:00" = none := by decide
example : parseScheduled "2026-01- 5T14:00:00" = some 1767592800 := by decide
example : lowerS "FaceBook" = "facebook" := by decide
example : isFbPlatform "FACEBOO\u212A" = true := by decide
example : pyInt "  +1_0 " = some 10 := by decide
example : pyInt "1__0" = none := by decide
example : utf8Decode [0xE4, 0xBD, 0xA0] = some ['你'] := by decide
example : utf8Decode [0xFF] = none := by decide
example : utf8Decode [0xED, 0xA0, 0x80] = none := by decide

/-! ## C1 — idempotency guard -/

/-- C1: a fetched record whose `發布狀態` is already `已發布` or `已排程`, or
whose `FB_Post_ID` is non-empty, makes `process_record` return a skip result
carrying the stored post id, with the record GET as the only outbound call:
no Meta call, no record patch, no log append. -/
theorem process_record_skips_published_or_scheduled
    (cfg : Config) (env : Env) (record_id : String) (rec : AirtableRecord)
    (hrec : env.record = some rec)
    (h : rec.status = "已發布" ∨ rec.status = "已排程" ∨
         (truthyOpt rec.fbPostId).isSome = true) :
    ∃ reason, process_record cfg env record_id =
      (ProcResult.skipped reason rec.fbPostId,
       [Effect.airtableGet ("Contents/" ++ record_id)]) := by
  by_cases hst : rec.status = "已發布" ∨ rec.status = "已排程"
  · exact ⟨"Already " ++ rec.status, by simp [process_record, hrec, hst]⟩
  · rcases h with h | h | h
    · exact absurd (Or.inl h) hst
    · exact absurd (Or.inr h) hst
    · exact ⟨"Already has FB Post ID", by simp [process_record, hrec, hst, h]⟩

theorem process_record_skips_published_or_scheduled_witness :
    ∃ reason,
      process_record ⟨"PAGE", "TOK", ""⟩
        ⟨some ⟨"已發布", none, "", none, none, []⟩,
         fun _ => ⟨none, none, ""⟩, 0, "t"⟩ "r1" =
      (ProcResult.skipped reason none,
       [Effect.airtableGet ("Contents/" ++ "r1")]) :=
  process_record_skips_published_or_scheduled ⟨"PAGE", "TOK", ""⟩
    ⟨some ⟨"已發布", none, "", none, none, []⟩,
     fun _ => ⟨none, none, ""⟩, 0, "t"⟩ "r1"
    ⟨"已發布", none, "", none, none, []⟩ rfl (Or.inl rfl)

/-! ## C5 — no resolvable images -/

/-- C5: a record that passes the idempotency guard but yields no image URLs
is patched to `發布失敗` with reason `沒有可用的圖片`, the result is the
error value, and no Meta call and no log append happen. -/
theorem process_record_no_images
    (cfg : Config) (env : Env) (record_id : String) (rec : AirtableRecord)
    (hrec : env.record = some rec)
    (hstat : ¬(rec.status = "已發布" ∨ rec.status = "已排程"))
    (hfb : truthyOpt rec.fbPostId = none)
    (himg : imageUrls rec.attachments = []) :
    process_record cfg env record_id =
      (ProcResult.noImages,
       [Effect.airtableGet ("Contents/" ++ record_id),
        Effect.airtablePatch ("Contents/" ++ record_id)
          { status := "發布失敗", confirm := false, fbId := none,
            reason := some "沒有可用的圖片" }]) := by
  have hr : truthyOpt (some "沒有可用的圖片") = some "沒有可用的圖片" := rfl
  have hn : truthyOpt none = none := rfl
  simp [process_record, hrec, hstat, hfb, himg, update_airtable_status, hr, hn]

theorem process_record_no_images_witness :
    process_record ⟨"PAGE", "TOK", ""⟩
      ⟨some ⟨"待發布", none, "hi", some "Facebook", none, [⟨some ""⟩, ⟨none⟩]⟩,
       fun _ => ⟨none, none, ""⟩, 0, "t"⟩ "r1" =
      (ProcResult.noImages,
       [Effect.airtableGet ("Contents/" ++ "r1"),
        Effect.airtablePatch ("Contents/" ++ "r1")
          { status := "發布失敗", confirm := false, fbId := none,
            reason := some "沒有可用的圖片" }]) :=
  process_record_no_images ⟨"PAGE", "TOK", ""⟩
    ⟨some ⟨"待發布", none, "hi", some "Facebook", none, [⟨some ""⟩, ⟨none⟩]⟩,
     fun _ => ⟨none, none, ""⟩, 0, "t"⟩ "r1"
    ⟨"待發布", none, "hi", some "Facebook", none, [⟨some ""⟩, ⟨none⟩]⟩
    rfl (by decide) rfl (by decide)

/-! ## C10 — no publish path for non-Facebook platforms -/

/-- C10: past the guard and with at least one image, a platform label
containing neither `facebook` nor `fb` (case-insensitively) produces no Meta
call, no patch and no log append; the result carries only the record id. -/
theorem process_record_non_facebook_platform
    (cfg : Config) (env : Env) (record_id : String) (rec : AirtableRecord)
    (hrec : env.record = some rec)
    (hstat : ¬(rec.status = "已發布" ∨ rec.status = "已排程"))
    (hfb : truthyOpt rec.fbPostId = none)
    (himg : imageUrls rec.attachments ≠ [])
    (hplat : isFbPlatform (rec.platform.getD "Facebook") = false) :
    process_record cfg env record_id =
      (ProcResult.idOnly record_id,
       [Effect.airtableGet ("Contents/" ++ record_id)]) := by
  simp [process_record, hrec, hstat, hfb, himg, hplat]

theorem process_record_non_facebook_platform_witness :
    process_record ⟨"PAGE", "TOK", ""⟩
      ⟨some ⟨"", none, "hi", some "Line", none, [⟨some "https://x.com/a.jpg"⟩]⟩,
       fun _ => ⟨none, none, ""⟩, 0, "t"⟩ "r1" =
      (ProcResult.idOnly "r1", [Effect.airtableGet ("Contents/" ++ "r1")]) :=
  process_record_non_facebook_platform ⟨"PAGE", "TOK", ""⟩
    ⟨some ⟨"", none, "hi", some "Line", none, [⟨some "https://x.com/a.jpg"⟩]⟩,
     fun _ => ⟨none, none, ""⟩, 0, "t"⟩ "r1"
    ⟨"", none, "hi", some "Line", none, [⟨some "https://x.com/a.jpg"⟩]⟩
    rfl (by decide) rfl (by decide) (by decide)

/-! ## C9 — 401 on bad auth, 400 on missing record id (corrected) -/

/-- C7 counterexample: a URL containing `/file/d/` but not
`drive.google.com` is returned unchanged by `get_image_url` (the per-URL
media-resolution function), not rewritten to the download template — the
claim's first universal is false as stated. -/
theorem get_image_url_file_d_not_rewritten :
    containsS "https://example.com/file/d/abc/x" "/file/d/" = true ∧
    get_image_url "https://example.com/file/d/abc/x" =
      "https://example.com/file/d/abc/x" ∧
    "https://example.com/file/d/abc/x" ≠
      "https://drive.google.com/uc?export=download&id=abc" :=
  ⟨by decide, by decide, by decide⟩

/-- C7 (amended): `drive_url_to_direct` rewrites every URL containing
`/file/d/` to the download template with the file id taken between
`/file/d/` and the next `/`; `get_image_url` applies that rewrite exactly to
URLs that contain `drive.google.com` and `/file/d/` but not
`airtableusercontent.com`, and returns every URL not containing
`drive.google.com` (or containing `airtableusercontent.com`) unchanged. -/
theorem get_image_url_drive_rewrite (url : String) :
    (containsS url "/file/d/" = true →
       drive_url_to_direct url =
         "https://drive.google.com/uc?export=download&id=" ++ fileIdOf url) ∧
    (containsS url "airtableusercontent.com" = false →
     containsS url "drive.google.com" = true →
     containsS url "/file/d/" = true →
       get_image_url url =
         "https://drive.google.com/uc?export=download&id=" ++ fileIdOf url) ∧
    (containsS url "drive.google.com" = false ∨
     containsS url "airtableusercontent.com" = true →
       get_image_url url = url) := by
  have hdrive : containsS url "/file/d/" = true →
      drive_url_to_direct url =
        "https://drive.google.com/uc?export=download&id=" ++ fileIdOf url := by
    intro h
    unfold containsS containsSub at h
    unfold drive_url_to_direct fileIdOf
    cases hs : splitOnL "/file/d/".toList url.toList with
    | nil => rw [hs] at h; simp at h
    | cons a t =>
      cases t with
      | nil => rw [hs] at h; simp at h
      | cons b t2 => rfl
  refine ⟨hdrive, ?_, ?_⟩
  · intro h1 h2 h3
    have hne : url ≠ "" := by
      intro he
      rw [he] at h2
      exact absurd h2 (by decide)
    unfold get_image_url
    rw [if_neg hne, if_neg (by simp [h1]), if_pos h2]
    exact hdrive h3
  · intro h
    by_cases h0 : url = ""
    · simp [get_image_url, h0]
    · rcases h with h | h
      · by_cases ha : containsS url "airtableusercontent.com" = true
        · simp [get_image_url, h0, ha]
        · simp [get_image_url, h0, ha, h]
      · simp [get_image_url, h0, h]

theorem get_image_url_drive_rewrite_witness :
    drive_url_to_direct "https://drive.google.com/file/d/AB12/view" =
      "https://drive.google.com/uc?export=download&id=" ++
        fileIdOf "https://drive.google.com/file/d/AB12/view" ∧
    get_image_url "https://drive.google.com/file/d/AB12/view" =
      "https://drive.google.com/uc?export=download&id=" ++
        fileIdOf "https://drive.google.com/file/d/AB12/view" ∧
    get_image_url "https://v5.airtableusercontent.com/v3/u/abc" =
      "https://v5.airtableusercontent.com/v3/u/abc" :=
  ⟨(get_image_url_drive_rewrite "https://drive.google.com/file/d/AB12/view").1
     (by decide),
   (get_image_url_drive_rewrite "https://drive.google.com/file/d/AB12/view").2.1
     (by decide) (by decide) (by decide),
   (get_image_url_drive_rewrite "https://v5.airtableusercontent.com/v3/u/abc").2.2
     (Or.inr (by decide))⟩

/-! ## Characterising the upload loop and the scheduling parameters -/

/-- The upload loop's outbound calls are one unpublished `/photos` POST per
URL, independent of the oracle's answers. -/
theorem uploadPhotos_snd (cfg : Config) (meta : Nat → MetaResp) :
    ∀ (urls : List String) (i : Nat),
      (uploadPhotos cfg meta urls i).2 =
        urls.map (fun u => Effect.metaPost (cfg.pageId ++ "/photos")
          [("url", get_image_url u), ("published", "false"),
           ("access_token", cfg.pageToken)]) := by
  intro urls
  induction urls with
  | nil => intro i; rfl
  | cons u rest ih =>
    intro i
    simp only [uploadPhotos]
    cases hm : (meta i).idField with
    | none => simp [hm, ih]
    | some pid => simp [hm, ih]

/-- The ids the upload loop collects are exactly the `id` fields of the
responses to calls `i, i+1, …`, in order. -/
theorem uploadPhotos_fst (cfg : Config) (meta : Nat → MetaResp) :
    ∀ (urls : List String) (i : Nat),
      (uploadPhotos cfg meta urls i).1 =
        (List.range urls.length).filterMap (fun j => (meta (i + j)).idField) := by
  intro urls
  induction urls with
  | nil => intro i; rfl
  | cons u rest ih =>
    intro i
    have hshift : (List.range rest.length).filterMap
        (fun j => (meta (i + 1 + j)).idField) =
        (List.map Nat.succ (List.range rest.length)).filterMap
          (fun j => (meta (i + j)).idField) := by
      rw [List.filterMap_map]
      apply List.filterMap_congr
      intro j _
      simp only [Function.comp_apply]
      congr 2
      omega
    simp only [uploadPhotos, List.length_cons, List.range_succ_eq_map,
      List.filterMap_cons, Nat.add_zero]
    cases hm : (meta i).idField with
    | none => simp [hm, ih, hshift]
    | some pid => simp [hm, ih, hshift]

/-- When `scheduled_timestamp` is `None`, no data dictionary sent by
`publish_to_facebook` contains a `scheduled_publish_time` key. -/
theorem publish_to_facebook_noSchedParam (cfg : Config) (meta : Nat → MetaResp)
    (content : String) (urls : List String) :
    ∀ e ∈ (publish_to_facebook cfg meta content urls none).2,
      ∀ kv ∈ effectData e, kv.1 ≠ "scheduled_publish_time" := by
  intro e he kv hkv
  simp only [publish_to_facebook] at he
  by_cases hc : cfg.pageId = "" ∨ cfg.pageToken = ""
  · rw [if_pos hc] at he
    simp at he
  · rw [if_neg hc] at he
    by_cases h1 : urls.length = 1
    · rw [if_pos h1] at he
      simp only [List.mem_singleton] at he
      subst he
      simp only [effectData, schedParams, List.append_nil, List.cons_append,
        List.nil_append, List.mem_cons, List.not_mem_nil, or_false] at hkv
      rcases hkv with rfl | rfl | rfl <;> simp
    · rw [if_neg h1] at he
      by_cases h2 : (uploadPhotos cfg meta (urls.take 10) 0).1 = []
      · rw [if_pos h2] at he
        rw [uploadPhotos_snd] at he
        simp only [List.mem_map] at he
        obtain ⟨u, -, rfl⟩ := he
        simp only [effectData, List.mem_cons, List.not_mem_nil, or_false] at hkv
        rcases hkv with rfl | rfl | rfl <;> simp
      · rw [if_neg h2] at he
        rw [uploadPhotos_snd] at he
        simp only [List.mem_append, List.mem_map, List.mem_singleton] at he
        rcases he with ⟨u, -, rfl⟩ | rfl
        · simp only [effectData, List.mem_cons, List.not_mem_nil, or_false] at hkv
          rcases hkv with rfl | rfl | rfl <;> simp
        · simp only [effectData, schedParams, List.append_nil, List.cons_append,
            List.nil_append, List.mem_cons, List.not_mem_nil, or_false] at hkv
          rcases hkv with rfl | rfl | rfl <;> simp

/-- Lifting `publish_to_facebook_noSchedParam` along every branch of
`process_record`: once the schedule resolves to `None`, nothing sent over the
wire contains a `scheduled_publish_time` key. -/
theorem process_record_noSchedParam (cfg : Config) (env : Env) (rid : String)
    (rec : AirtableRecord) (hrec : env.record = some rec)
    (hres : resolveSchedule env.now rec.scheduledDatetime = none) :
    ∀ e ∈ (process_record cfg env rid).2, ∀ kv ∈ effectData e,
      kv.1 ≠ "scheduled_publish_time" := by
  intro e he kv hkv
  simp only [process_record, hrec] at he
  by_cases hst : rec.status = "已發布" ∨ rec.status = "已排程"
  · rw [if_pos hst] at he
    simp only [List.mem_singleton] at he
    subst he
    simp [effectData] at hkv
  · rw [if_neg hst] at he
    by_cases hfb : (truthyOpt rec.fbPostId).isSome = true
    · rw [if_pos hfb] at he
      simp only [List.mem_singleton] at he
      subst he
      simp [effectData] at hkv
    · rw [if_neg hfb] at he
      by_cases himg : imageUrls rec.attachments = []
      · rw [if_pos himg] at he
        simp only [List.mem_cons, List.mem_singleton] at he
        rcases he with rfl | rfl | h
        · simp [effectData] at hkv
        · simp [effectData, update_airtable_status] at hkv
        · simp at h
      · rw [if_neg himg] at he
        rw [hres] at he
        by_cases hplat : isFbPlatform (rec.platform.getD "Facebook") = true
        · rw [if_pos hplat] at he
          cases hpub : (publish_to_facebook cfg env.meta rec.content
              (imageUrls rec.attachments) none).1 with
          | ok pid perm =>
            rw [hpub] at he
            simp only [List.cons_append, List.mem_cons, List.mem_append,
              List.mem_singleton] at he
            rcases he with rfl | he | rfl | rfl | h
            · simp [effectData] at hkv
            · exact publish_to_facebook_noSchedParam cfg env.meta rec.content
                (imageUrls rec.attachments) e he kv hkv
            · simp [effectData, update_airtable_status] at hkv
            · simp [effectData, log_to_publishing_log] at hkv
            · simp at h
          | fail err =>
            rw [hpub] at he
            simp only [List.cons_append, List.mem_cons, List.mem_append,
              List.mem_singleton] at he
            rcases he with rfl | he | rfl | rfl | h
            · simp [effectData] at hkv
            · exact publish_to_facebook_noSchedParam cfg env.meta rec.content
                (imageUrls rec.attachments) e he kv hkv
            · simp [effectData, update_airtable_status] at hkv
            · simp [effectData, log_to_publishing_log] at hkv
            · simp at h
        · rw [if_neg hplat] at he
          simp only [List.mem_singleton] at he
          subst he
          simp [effectData] at hkv

/-! ## C2 — the 15-minute minimum lead -/

/-- C2: a record whose schedule string parses to the instant `ts`
(Unix seconds): strictly below `now + 900` the schedule is discarded and the
whole invocation sends no `scheduled_publish_time` parameter anywhere; at
`now + 900` or later the schedule is kept with exactly the value `ts`. -/
theorem schedule_below_lead_discarded
    (cfg : Config) (env : Env) (rid : String) (rec : AirtableRecord)
    (s : String) (ts : Int)
    (hrec : env.record = some rec)
    (hs : rec.scheduledDatetime = some s)
    (hts : parseScheduled s = some ts) :
    (ts < env.now + 900 →
       resolveSchedule env.now rec.scheduledDatetime = none ∧
       ∀ e ∈ (process_record cfg env rid).2, ∀ kv ∈ effectData e,
         kv.1 ≠ "scheduled_publish_time") ∧
    (env.now + 900 ≤ ts →
       resolveSchedule env.now rec.scheduledDatetime = some ts) := by
  have hsne : s ≠ "" := by
    intro he
    rw [he, show parseScheduled "" = none from rfl] at hts
    exact Option.noConfusion hts
  constructor
  · intro hlt
    have hres : resolveSchedule env.now rec.scheduledDatetime = none := by
      rw [hs]
      simp only [resolveSchedule]
      rw [if_neg hsne, hts]
      show (if ts < env.now + 900 then (none : Option Int) else some ts) = none
      rw [if_pos hlt]
    exact ⟨hres, process_record_noSchedParam cfg env rid rec hrec hres⟩
  · intro hge
    rw [hs]
    simp only [resolveSchedule]
    rw [if_neg hsne, hts]
    show (if ts < env.now + 900 then (none : Option Int) else some ts) = some ts
    rw [if_neg (by omega)]

theorem schedule_below_lead_discarded_witness :
    resolveSchedule (1767621600 : Int) (some "2026-01-05T14:00:00Z") = none ∧
    ∀ e ∈ (process_record ⟨"PAGE", "TOK", ""⟩
        ⟨some ⟨"", none, "hi", some "Facebook", some "2026-01-05T14:00:00Z",
           [⟨some "u1"⟩]⟩,
         fun _ => ⟨some "id9", none, "r"⟩, 1767621600, "t"⟩ "r1").2,
      ∀ kv ∈ effectData e, kv.1 ≠ "scheduled_publish_time" :=
  (schedule_below_lead_discarded ⟨"PAGE", "TOK", ""⟩
      ⟨some ⟨"", none, "hi", some "Facebook", some "2026-01-05T14:00:00Z",
         [⟨some "u1"⟩]⟩,
       fun _ => ⟨some "id9", none, "r"⟩, 1767621600, "t"⟩ "r1"
      ⟨"", none, "hi", some "Facebook", some "2026-01-05T14:00:00Z",
         [⟨some "u1"⟩]⟩
      "2026-01-05T14:00:00Z" 1767621600 rfl rfl (by decide)).1 (by decide)

/-! ## C4 — parse failure falls back to immediate publish (corrected) -/

/-- C6: with the page configuration present, a single image produces exactly
one `/photos` upload carrying the caption (and no `/feed` call); `n ≥ 2`
images produce one unpublished `/photos` upload per URL of `urls[:10]`
followed — exactly when at least one upload returned an id — by one `/feed`
call whose `attached_media` lists every successfully uploaded media id in
order; if no upload returns an id the result is the failure
`Failed to upload images` and no `/feed` call is made. -/
theorem publish_to_facebook_call_structure
    (cfg : Config) (meta : Nat → MetaResp) (content : String)
    (urls : List String) (sched : Option Int)
    (hcfg : cfg.pageId ≠ "" ∧ cfg.pageToken ≠ "") :
    (urls.length = 1 →
       publish_to_facebook cfg meta content urls sched =
         (fbResultOf (meta 0),
          [Effect.metaPost (cfg.pageId ++ "/photos")
             ([("url", get_image_url (urls.headD "")), ("caption", content)]
               ++ schedParams sched ++ [("access_token", cfg.pageToken)])])) ∧
    (2 ≤ urls.length →
     (List.range (min 10 urls.length)).filterMap (fun j => (meta j).idField)
        = [] →
       publish_to_facebook cfg meta content urls sched =
         (FbResult.fail "Failed to upload images",
          (urls.take 10).map (fun u => Effect.metaPost (cfg.pageId ++ "/photos")
            [("url", get_image_url u), ("published", "false"),
             ("access_token", cfg.pageToken)]))) ∧
    (2 ≤ urls.length →
     (List.range (min 10 urls.length)).filterMap (fun j => (meta j).idField)
        ≠ [] →
       publish_to_facebook cfg meta content urls sched =
         (fbResultOf (meta (min 10 urls.length)),
          (urls.take 10).map (fun u => Effect.metaPost (cfg.pageId ++ "/photos")
            [("url", get_image_url u), ("published", "false"),
             ("access_token", cfg.pageToken)]) ++
          [Effect.metaPost (cfg.pageId ++ "/feed")
             ([("message", content),
               ("attached_media", encodeMedia
                 ((List.range (min 10 urls.length)).filterMap
                   (fun j => (meta j).idField)))]
               ++ schedParams sched ++ [("access_token", cfg.pageToken)])])) := by
  have hc : ¬(cfg.pageId = "" ∨ cfg.pageToken = "") := by
    rintro (h | h)
    · exact hcfg.1 h
    · exact hcfg.2 h
  have hids : (uploadPhotos cfg meta (urls.take 10) 0).1 =
      (List.range (min 10 urls.length)).filterMap (fun j => (meta j).idField) := by
    rw [uploadPhotos_fst, List.length_take]
    apply List.filterMap_congr
    intro j _
    rw [Nat.zero_add]
  refine ⟨?_, ?_, ?_⟩
  · intro h1
    simp only [publish_to_facebook]
    rw [if_neg hc, if_pos h1]
  · intro h2 hid0
    have hne1 : ¬ urls.length = 1 := by omega
    have hid : (uploadPhotos cfg meta (urls.take 10) 0).1 = [] := by
      rw [hids]; exact hid0
    simp only [publish_to_facebook]
    rw [if_neg hc, if_neg hne1, if_pos hid, uploadPhotos_snd]
  · intro h2 hid0
    have hne1 : ¬ urls.length = 1 := by omega
    have hid : ¬((uploadPhotos cfg meta (urls.take 10) 0).1 = []) := by
      rw [hids]; exact hid0
    simp only [publish_to_facebook]
    rw [if_neg hc, if_neg hne1, if_neg hid, uploadPhotos_snd, hids,
      List.length_take]

theorem publish_to_facebook_call_structure_witness :
    publish_to_facebook ⟨"P", "T", "s"⟩
        (fun i => if i = 0 then ⟨some "a", none, ""⟩
          else if i = 1 then ⟨none, some "e", "raw"⟩
          else if i = 2 then ⟨some "c", none, ""⟩
          else ⟨some "f", none, ""⟩) "msg" ["u1", "u2", "u3"] none =
      (FbResult.ok "f" "https://www.facebook.com/f",
       [Effect.metaPost "P/photos"
          [("url", "u1"), ("published", "false"), ("access_token", "T")],
        Effect.metaPost "P/photos"
          [("url", "u2"), ("published", "false"), ("access_token", "T")],
        Effect.metaPost "P/photos"
          [("url", "u3"), ("published", "false"), ("access_token", "T")],
        Effect.metaPost "P/feed"
          [("message", "msg"),
           ("attached_media",
            "[\x7b\"media_fbid\": \"a\"\x7d, \x7b\"media_fbid\": \"c\"\x7d]"),
           ("access_token", "T")]]) := by
  rw [(publish_to_facebook_call_structure ⟨"P", "T", "s"⟩
      (fun i => if i = 0 then ⟨some "a", none, ""⟩
        else if i = 1 then ⟨none, some "e", "raw"⟩
        else if i = 2 then ⟨some "c", none, ""⟩
        else ⟨some "f", none, ""⟩) "msg" ["u1", "u2", "u3"] none
      ⟨by decide, by decide⟩).2.2 (by decide) (by decide)]
  decide

/-! ## C3 — correctness of the computed Unix timestamp

To quantify over all well-formed schedule strings we format an arbitrary
valid civil datetime into the canonical Airtable shapes
`YYYY-MM-DDTHH:MM:SS` / `YYYY-MM-DDTHH:MM:SSZ` and prove the parser inverts
the formatting, so the resulting timestamp is exactly `toEpoch` (UTC case)
or `toEpoch - 8*3600` (Asia/Taipei wall-clock case). -/

def fmt2 (n : Nat) : List Char := [Nat.digitChar (n / 10), Nat.digitChar (n % 10)]

def fmt4 (n : Nat) : List Char :=
  [Nat.digitChar (n / 1000), Nat.digitChar (n / 100 % 10),
   Nat.digitChar (n / 10 % 10), Nat.digitChar (n % 10)]

def datePartL (c : Civil) : List Char :=
  fmt4 c.year ++ '-' :: (fmt2 c.month ++ '-' :: fmt2 c.day)

def timePartL (c : Civil) : List Char :=
  fmt2 c.hour ++ ':' :: (fmt2 c.minute ++ ':' :: fmt2 c.second)

def fmtCivil (c : Civil) : List Char := datePartL c ++ 'T' :: timePartL c

/-- The canonical naive datetime string `YYYY-MM-DDTHH:MM:SS`. -/
def fmtNaiveStr (c : Civil) : String := String.mk (fmtCivil c)

/-- The canonical UTC datetime string `YYYY-MM-DDTHH:MM:SSZ`. -/
def fmtZStr (c : Civil) : String := String.mk (fmtCivil c ++ ['Z'])

theorem isDigitC_digitChar : ∀ k, k < 10 → isDigitC (Nat.digitChar k) = true := by
  decide

theorem digitVal_digitChar : ∀ k, k < 10 → digitVal (Nat.digitChar k) = k := by
  decide

theorem not_mem_fmt2 {ch : Char} {n : Nat} (hn : n ≤ 99)
    (hc : isDigitC ch = false) : ch ∉ fmt2 n := by
  intro h
  simp only [fmt2, List.mem_cons, List.not_mem_nil, or_false] at h
  rcases h with rfl | rfl
  · rw [isDigitC_digitChar (n / 10) (by omega)] at hc
    exact Bool.noConfusion hc
  · rw [isDigitC_digitChar (n % 10) (by omega)] at hc
    exact Bool.noConfusion hc

theorem not_mem_fmt4 {ch : Char} {n : Nat} (hn : n ≤ 9999)
    (hc : isDigitC ch = false) : ch ∉ fmt4 n := by
  intro h
  simp only [fmt4, List.mem_cons, List.not_mem_nil, or_false] at h
  rcases h with rfl | rfl | rfl | rfl
  · rw [isDigitC_digitChar (n / 1000) (by omega)] at hc
    exact Bool.noConfusion hc
  · rw [isDigitC_digitChar (n / 100 % 10) (by omega)] at hc
    exact Bool.noConfusion hc
  · rw [isDigitC_digitChar (n / 10 % 10) (by omega)] at hc
    exact Bool.noConfusion hc
  · rw [isDigitC_digitChar (n % 10) (by omega)] at hc
    exact Bool.noConfusion hc

theorem validCivil_bounds {c : Civil} (hv : validCivil c = true) :
    1 ≤ c.year ∧ c.year ≤ 9999 ∧ c.month ≤ 99 ∧ c.day ≤ 99 ∧
    c.hour ≤ 99 ∧ c.minute ≤ 99 ∧ c.second ≤ 99 := by
  have hdm : daysInMonth c.year c.month ≤ 31 := by
    unfold daysInMonth
    split_ifs <;> omega
  simp only [validCivil, Bool.and_eq_true, decide_eq_true_eq] at hv
  omega

theorem not_mem_datePart {ch : Char} {c : Civil} (hv : validCivil c = true)
    (hd : isDigitC ch = false) (hdash : ch ≠ '-') : ch ∉ datePartL c := by
  obtain ⟨-, hy, hmo, hda, -, -, -⟩ := validCivil_bounds hv
  intro h
  simp only [datePartL, List.mem_append, List.mem_cons] at h
  rcases h with h | rfl | h | rfl | h
  · exact not_mem_fmt4 hy hd h
  · exact hdash rfl
  · exact not_mem_fmt2 hmo hd h
  · exact hdash rfl
  · exact not_mem_fmt2 hda hd h

theorem not_mem_timePart {ch : Char} {c : Civil} (hv : validCivil c = true)
    (hd : isDigitC ch = false) (hcolon : ch ≠ ':') : ch ∉ timePartL c := by
  obtain ⟨-, -, -, -, hho, hmi, hse⟩ := validCivil_bounds hv
  intro h
  simp only [timePartL, List.mem_append, List.mem_cons] at h
  rcases h with h | rfl | h | rfl | h
  · exact not_mem_fmt2 hho hd h
  · exact hcolon rfl
  · exact not_mem_fmt2 hmi hd h
  · exact hcolon rfl
  · exact not_mem_fmt2 hse hd h

theorem not_mem_fmtCivil {ch : Char} {c : Civil} (hv : validCivil c = true)
    (hd : isDigitC ch = false) (hdash : ch ≠ '-') (hcolon : ch ≠ ':')
    (hT : ch ≠ 'T') : ch ∉ fmtCivil c := by
  intro h
  simp only [fmtCivil, List.mem_append, List.mem_cons] at h
  rcases h with h | rfl | h
  · exact not_mem_datePart hv hd hdash h
  · exact hT rfl
  · exact not_mem_timePart hv hd hcolon h

theorem splitOnAux_no_match {p0 : Char} {ps xs : List Char} (h : p0 ∉ xs) :
    splitOnAux p0 ps xs = [xs] := by
  induction xs with
  | nil => rfl
  | cons c rest ih =>
    have hc : ¬(c = p0 ∧ ps.isPrefixOf rest = true) := by
      rintro ⟨rfl, -⟩
      exact h (List.mem_cons_self _ _)
    rw [splitOnAux_cons, if_neg hc, ih (fun hm => h (List.mem_cons_of_mem _ hm))]

theorem splitOnAux_append_sep {sep : Char} {a b : List Char} (h : sep ∉ a) :
    splitOnAux sep [] (a ++ sep :: b) = a :: splitOnAux sep [] b := by
  induction a with
  | nil =>
    rw [List.nil_append, splitOnAux_cons,
      if_pos ⟨rfl, List.isPrefixOf_nil_left⟩]
    simp
  | cons x a2 ih =>
    have hx : ¬(x = sep ∧ ([] : List Char).isPrefixOf (a2 ++ sep :: b) = true) := by
      rintro ⟨rfl, -⟩
      exact h (List.mem_cons_self _ _)
    rw [List.cons_append, splitOnAux_cons, if_neg hx,
      ih (fun hm => h (List.mem_cons_of_mem _ hm))]

theorem splitOnL_no_match {sep : Char} {xs : List Char} (h : sep ∉ xs) :
    splitOnL [sep] xs = [xs] :=
  splitOnAux_no_match h

theorem splitOnL_single_mid {sep : Char} {a b : List Char} (h : sep ∉ a) :
    splitOnL [sep] (a ++ sep :: b) = a :: splitOnL [sep] b :=
  splitOnAux_append_sep h

theorem replaceL_no_match {p0 : Char} {ps rep xs : List Char} (h : p0 ∉ xs) :
    replaceL (p0 :: ps) rep xs = xs := by
  show List.intercalate rep (splitOnAux p0 ps xs) = xs
  rw [splitOnAux_no_match h]
  simp [List.intercalate]

theorem preprocessDT_no_dot {l : List Char} (h : '.' ∉ l) :
    preprocessDT l = l := by
  unfold preprocessDT
  rw [replaceL_no_match h, replaceL_no_match h]

theorem parseDigits_fmt2 {n : Nat} (hn : n ≤ 99) :
    parseDigits (fmt2 n) = some n := by
  have h1 : n / 10 < 10 := by omega
  have h2 : n % 10 < 10 := by omega
  unfold parseDigits fmt2
  rw [if_pos]
  · simp only [List.foldl]
    rw [digitVal_digitChar _ h1, digitVal_digitChar _ h2,
      show (0 * 10 + n / 10) * 10 + n % 10 = n by omega]
  · simp [isDigitC_digitChar _ h1, isDigitC_digitChar _ h2]

theorem parseDigits_fmt4 {n : Nat} (hn : n ≤ 9999) :
    parseDigits (fmt4 n) = some n := by
  have h1 : n / 1000 < 10 := by omega
  have h2 : n / 100 % 10 < 10 := by omega
  have h3 : n / 10 % 10 < 10 := by omega
  have h4 : n % 10 < 10 := by omega
  unfold parseDigits fmt4
  rw [if_pos]
  · simp only [List.foldl]
    rw [digitVal_digitChar _ h1, digitVal_digitChar _ h2,
      digitVal_digitChar _ h3, digitVal_digitChar _ h4,
      show (((0 * 10 + n / 1000) * 10 + n / 100 % 10) * 10 + n / 10 % 10) * 10
          + n % 10 = n by omega]
  · simp [isDigitC_digitChar _ h1, isDigitC_digitChar _ h2,
      isDigitC_digitChar _ h3, isDigitC_digitChar _ h4]

theorem parseF2_fmt2 {n : Nat} (hn : n ≤ 99) : parseF2 (fmt2 n) = some n := by
  unfold parseF2
  rw [if_pos (show (fmt2 n).length = 1 ∨ (fmt2 n).length = 2 from Or.inr rfl)]
  exact parseDigits_fmt2 hn

theorem parseY_fmt4 {n : Nat} (hn : n ≤ 9999) : parseY (fmt4 n) = some n := by
  unfold parseY
  rw [if_pos (show (fmt4 n).length = 4 from rfl)]
  exact parseDigits_fmt4 hn

theorem digitChar_ne_space : ∀ k, k < 10 → Nat.digitChar k ≠ ' ' := by decide

theorem parseDay_fmt2 {n : Nat} (hn : n ≤ 99) : parseDay (fmt2 n) = some n := by
  show parseDay [Nat.digitChar (n / 10), Nat.digitChar (n % 10)] = some n
  unfold parseDay
  simp only []
  rw [if_neg (digitChar_ne_space (n / 10) (by omega))]
  exact parseF2_fmt2 hn

theorem foldT_id {l : List Char} (h : 't' ∉ l) : foldT l = l := by
  induction l with
  | nil => rfl
  | cons c rest ih =>
    have hc : c ≠ 't' := fun he => h (he ▸ List.mem_cons_self _ _)
    simp only [foldT, List.map_cons] at ih ⊢
    rw [if_neg hc, ih (fun hm => h (List.mem_cons_of_mem _ hm))]

/-- The parser inverts the canonical formatting on every valid civil
datetime. -/
theorem strptimeCivil_fmt {c : Civil} (hv : validCivil c = true) :
    strptimeCivil (fmtCivil c) = some c := by
  obtain ⟨hy1, hy, hmo, hda, hho, hmi, hse⟩ := validCivil_bounds hv
  have hfold : foldT (fmtCivil c) = fmtCivil c :=
    foldT_id (not_mem_fmtCivil hv (by decide) (by decide) (by decide) (by decide))
  have h1 : splitOnL ['T'] (fmtCivil c) = [datePartL c, timePartL c] := by
    show splitOnL ['T'] (datePartL c ++ 'T' :: timePartL c) = _
    rw [splitOnL_single_mid (not_mem_datePart hv (by decide) (by decide)),
      splitOnL_no_match (not_mem_timePart hv (by decide) (by decide))]
  have h2 : splitOnL ['-'] (datePartL c) =
      [fmt4 c.year, fmt2 c.month, fmt2 c.day] := by
    show splitOnL ['-']
      (fmt4 c.year ++ '-' :: (fmt2 c.month ++ '-' :: fmt2 c.day)) = _
    rw [splitOnL_single_mid (not_mem_fmt4 hy (by decide)),
      splitOnL_single_mid (not_mem_fmt2 hmo (by decide)),
      splitOnL_no_match (not_mem_fmt2 hda (by decide))]
  have h3 : splitOnL [':'] (timePartL c) =
      [fmt2 c.hour, fmt2 c.minute, fmt2 c.second] := by
    show splitOnL [':']
      (fmt2 c.hour ++ ':' :: (fmt2 c.minute ++ ':' :: fmt2 c.second)) = _
    rw [splitOnL_single_mid (not_mem_fmt2 hho (by decide)),
      splitOnL_single_mid (not_mem_fmt2 hmi (by decide)),
      splitOnL_no_match (not_mem_fmt2 hse (by decide))]
  unfold strptimeCivil
  rw [hfold, h1]
  simp only []
  rw [h2, h3]
  simp only []
  rw [parseY_fmt4 hy, parseF2_fmt2 hmo, parseDay_fmt2 hda, parseF2_fmt2 hho,
    parseF2_fmt2 hmi, parseF2_fmt2 hse]
  simp only []
  show (if validCivil c then some c else none) = some c
  rw [if_pos hv]

theorem reverse_head?_append {l r : List Char} (hr : r ≠ []) :
    (l ++ r).reverse.head? = r.reverse.head? := by
  rw [List.reverse_append]
  cases hrev : r.reverse with
  | nil =>
    exact absurd (by simpa using congrArg List.reverse hrev) hr
  | cons a t => simp [hrev]

theorem digitChar_ne_Z : ∀ k, k < 10 → Nat.digitChar k ≠ 'Z' := by decide

theorem parseScheduledL_fmtZ {c : Civil} (hv : validCivil c = true) :
    parseScheduledL (fmtCivil c ++ ['Z']) = some (toEpoch c) := by
  have hdot : '.' ∉ fmtCivil c ++ ['Z'] := by
    intro h
    rcases List.mem_append.mp h with h | h
    · exact not_mem_fmtCivil hv (by decide) (by decide) (by decide) (by decide) h
    · simp only [List.mem_cons, List.not_mem_nil, or_false] at h
      exact absurd h (by decide)
  have hrev : (fmtCivil c ++ ['Z']).reverse = 'Z' :: (fmtCivil c).reverse := by
    simp
  simp only [parseScheduledL]
  rw [preprocessDT_no_dot hdot, hrev,
    if_pos (show ('Z' :: (fmtCivil c).reverse).head? = some 'Z' from rfl),
    show ('Z' :: (fmtCivil c).reverse).tail = (fmtCivil c).reverse from rfl,
    List.reverse_reverse, strptimeCivil_fmt hv]
  rfl

theorem parseScheduledL_fmtNaive {c : Civil} (hv : validCivil c = true) :
    parseScheduledL (fmtCivil c) = some (toEpoch c - 8 * 3600) := by
  have hdot : '.' ∉ fmtCivil c :=
    not_mem_fmtCivil hv (by decide) (by decide) (by decide) (by decide)
  have hlast : (fmtCivil c).reverse.head? =
      some (Nat.digitChar (c.second % 10)) := by
    show (datePartL c ++ 'T' :: timePartL c).reverse.head? = _
    rw [reverse_head?_append (by simp)]
    show (['T'] ++ timePartL c).reverse.head? = _
    rw [reverse_head?_append (by simp [timePartL, fmt2])]
    show (fmt2 c.hour ++ ':' :: (fmt2 c.minute ++ ':' :: fmt2 c.second)).reverse.head? = _
    rw [reverse_head?_append (by simp)]
    show ([':'] ++ (fmt2 c.minute ++ ':' :: fmt2 c.second)).reverse.head? = _
    rw [reverse_head?_append (by simp [fmt2])]
    show (fmt2 c.minute ++ ':' :: fmt2 c.second).reverse.head? = _
    rw [reverse_head?_append (by simp)]
    show ([':'] ++ fmt2 c.second).reverse.head? = _
    rw [reverse_head?_append (by simp [fmt2])]
    show ([Nat.digitChar (c.second / 10), Nat.digitChar (c.second % 10)]).reverse.head? = _
    rfl
  have hne : ¬((fmtCivil c).reverse.head? = some 'Z') := by
    rw [hlast]
    intro h
    exact digitChar_ne_Z (c.second % 10) (by omega) (Option.some.inj h)
  simp only [parseScheduledL]
  rw [preprocessDT_no_dot hdot, if_neg hne, strptimeCivil_fmt hv]
  rfl

/-- C3: a well-formed schedule string at least 15 minutes in the future
resolves to the Unix time of the correct UTC instant: the `Z`-suffixed
string `YYYY-MM-DDTHH:MM:SSZ` is parsed as UTC and yields exactly
`toEpoch c`, while the naive string `YYYY-MM-DDTHH:MM:SS` is interpreted as
Asia/Taipei wall-clock time (fixed UTC+8 from 1980 on, hence the
`1980 ≤ year` hypothesis) and yields `toEpoch c - 8*3600`. -/
theorem schedule_timestamp_utc_correct (now : Int) (c : Civil)
    (hv : validCivil c = true) (hyear : 1980 ≤ c.year) :
    (now + 900 ≤ toEpoch c →
       resolveSchedule now (some (fmtZStr c)) = some (toEpoch c)) ∧
    (now + 900 ≤ toEpoch c - 28800 →
       resolveSchedule now (some (fmtNaiveStr c)) =
         some (toEpoch c - 28800)) := by
  have hzero : 0 < c.year := by omega
  have hzne : fmtZStr c ≠ "" := by
    simp [fmtZStr, String.ext_iff]
  have hnne : fmtNaiveStr c ≠ "" := by
    simp [fmtNaiveStr, String.ext_iff, fmtCivil, datePartL, fmt4]
  constructor
  · intro hge
    simp only [resolveSchedule]
    rw [if_neg hzne,
      show parseScheduled (fmtZStr c) = some (toEpoch c) from
        parseScheduledL_fmtZ hv]
    show (if toEpoch c < now + 900 then (none : Option Int)
      else some (toEpoch c)) = some (toEpoch c)
    rw [if_neg (by omega)]
  · intro hge
    simp only [resolveSchedule]
    rw [if_neg hnne,
      show parseScheduled (fmtNaiveStr c) = some (toEpoch c - 8 * 3600) from
        parseScheduledL_fmtNaive hv]
    show (if toEpoch c - 8 * 3600 < now + 900 then (none : Option Int)
      else some (toEpoch c - 8 * 3600)) = some (toEpoch c - 28800)
    rw [if_neg (by omega)]
    rw [show (8 * 3600 : Int) = 28800 from by decide]

theorem schedule_timestamp_utc_correct_witness :
    resolveSchedule 0 (some "2026-01-05T14:00:00Z") = some 1767621600 ∧
    resolveSchedule 0 (some "2026-01-05T14:00:00") = some 1767592800 := by
  have h := schedule_timestamp_utc_correct 0 ⟨2026, 1, 5, 14, 0, 0⟩
    (by decide) (by decide)
  rw [show toEpoch ⟨2026, 1, 5, 14, 0, 0⟩ = 1767621600 from by decide,
    show fmtZStr ⟨2026, 1, 5, 14, 0, 0⟩ = "2026-01-05T14:00:00Z" from by decide,
    show fmtNaiveStr ⟨2026, 1, 5, 14, 0, 0⟩ = "2026-01-05T14:00:00" from by decide]
    at h
  refine ⟨h.1 (by decide), ?_⟩
  have h2 := h.2 (by decide)
  rw [show (1767621600 - 28800 : Int) = 1767592800 from by decide] at h2
  exact h2

end AMW
